import Mathlib

/-!
Shallow embedding of the status classification and reshaping pipeline of
the competition dashboard (`tempCodeRunnerFile.py`), together with the
rendering callback `render_view`.  Cells of the input table are modelled
by `CellValue`; the Python string operations the code uses (`str`,
`or ""`, `.lower()`, `in`, `.strip()`) are modelled character-exactly for
the character set the program manipulates (ASCII plus the two cased
Latin-1 letters occurring in the source's mis-encoded "n/a" literal).
-/

/-- A cell of the input table: a Python string, `None`, float NaN
(pandas' marker for an empty CSV cell), or an integer. -/
inductive CellValue where
  | str (s : String)
  | pyNone
  | nan
  | int (n : Int)
deriving DecidableEq

/-- Python `str()` on a cell: identity on strings, `"None"` for `None`,
`"nan"` for float NaN, decimal text for integers. -/
def pyStr : CellValue → String
  | .str s => s
  | .pyNone => "None"
  | .nan => "nan"
  | .int n => toString n

/-- Python `str.lower` per character, for the characters this program
manipulates: ASCII letters plus the two cased Latin-1 letters that occur
in the source's literal for the mis-encoded slash (`Å` and `Ñ`), which
Python's Unicode-aware `lower` also maps down. -/
def pyCharLower (c : Char) : Char :=
  if c = 'Å' then 'å' else if c = 'Ñ' then 'ñ' else c.toLower

/-- Python `str.lower` on a string. -/
def pyLower (s : String) : String := ⟨s.data.map pyCharLower⟩

/-- Python `s or dflt` between strings: the empty string is falsy and
yields `dflt`, every other string is returned unchanged. -/
def pyOr (s dflt : String) : String := if s = "" then dflt else s

/-- Does the character list start with the given pattern? -/
def startsWithChars : List Char → List Char → Bool
  | _, [] => true
  | [], _ :: _ => false
  | a :: as, b :: bs => a == b && startsWithChars as bs

/-- Occurrence test on character lists: the pattern occurs somewhere in
the haystack (an empty pattern occurs everywhere, as in Python). -/
def occursInChars : List Char → List Char → Bool
  | [], pat => pat.isEmpty
  | hay@(_ :: rest), pat => startsWithChars hay pat || occursInChars rest pat

/-- Python `needle in hay` on strings. -/
def pyIn (needle hay : String) : Bool := occursInChars hay.data needle.data

/-- Python whitespace test for `str.strip` (ASCII whitespace: space, tab,
newline, carriage return, vertical tab, form feed). -/
def pyWs (c : Char) : Bool :=
  c == ' ' || c == '\t' || c == '\n' || c == '\r' ||
  c.toNat == 11 || c.toNat == 12

/-- Python `str.strip`: drop leading and trailing whitespace. -/
def pyStrip (s : String) : String :=
  ⟨((s.data.dropWhile pyWs).reverse.dropWhile pyWs).reverse⟩

/-- The classifier `to_status` of the source, line for line: normalise
with `str(text) or ""` then `.lower()` (the code performs no trim), then
walk the rule ladder.  The third alternative of the first rule is the
source's mis-encoded "n/a" literal, kept verbatim. -/
def to_status (text : CellValue) : String :=
  let t := pyLower (pyOr (pyStr text) "")
  if t = "na" ∨ t = "n/a" ∨ t = "n‚ÅÑa" then "na"
  else if pyIn "need to request" t then "no"
  else if pyIn "primarily" t || pyIn "missing" t || pyIn "lacks" t ||
      pyIn "for users who can read" t then "partial"
  else "yes"

/-- The normalisation step of `to_status` in isolation. -/
def pyNorm (v : CellValue) : String := pyLower (pyOr (pyStr v) "")

/-- Rule 1 of the ladder: the normalised text equals "na", "n/a", or the
source's mis-encoded spelling of "n/a". -/
def ruleNa (v : CellValue) : Prop :=
  pyNorm v = "na" ∨ pyNorm v = "n/a" ∨ pyNorm v = "n‚ÅÑa"

/-- Rule 2 of the ladder: the normalised text contains "need to request". -/
def ruleNo (v : CellValue) : Prop := pyIn "need to request" (pyNorm v) = true

/-- Rule 3 of the ladder: the normalised text contains one of the four
partial-support markers. -/
def rulePart (v : CellValue) : Prop :=
  (pyIn "primarily" (pyNorm v) || pyIn "missing" (pyNorm v) ||
   pyIn "lacks" (pyNorm v) || pyIn "for users who can read" (pyNorm v)) = true

/-- A tabular input: column names and rows of cells, as read by
`pd.read_csv`.  Row `i`'s cell in column `j` is `rows[i][j]`. -/
structure Table where
  cols : List String
  rows : List (List CellValue)
deriving DecidableEq

/-- Branch selection of the pipeline: the input is long form when it
already has both a "Status" and a "Competitor" column. -/
def isLongForm (t : Table) : Bool :=
  t.cols.contains "Status" && t.cols.contains "Competitor"

/-- Index of the first column with the given name (length if absent). -/
def idxOf : List String → String → Nat
  | [], _ => 0
  | c :: cs, n => if c = n then 0 else idxOf cs n + 1

/-- One application of `.str.lower().str.strip()` to a Status cell of
an object-dtype (string-holding) column: pandas' string accessor
lowercases then strips string cells and turns the non-string cells mixed
into such a column into NaN.  The accessor's dtype requirement — it
raises outright on a column with no strings at all — is modelled
separately by `strAccessorOk`. -/
def statusNorm : CellValue → CellValue
  | .str s => .str (pyStrip (pyLower s))
  | _ => .nan

/-- The long-form branch: `df["Status"] = df["Status"].str.lower().str.strip()`
rewrites the Status column in place and touches nothing else. -/
def normalizeLong (t : Table) : Table :=
  { cols := t.cols,
    rows := t.rows.map (fun r =>
      r.set (idxOf t.cols "Status")
        (statusNorm (r.getD (idxOf t.cols "Status") .nan))) }

/-- Column names paired with their positions, starting at the given
index. -/
def idxPairs : Nat → List String → List (Nat × String)
  | _, [] => []
  | i, c :: cs => (i, c) :: idxPairs (i + 1) cs

/-- The value columns of `df.melt(id_vars=["Feature"], ...)`: every
column other than "Feature", with its position. -/
def valueCols (t : Table) : List (Nat × String) :=
  (idxPairs 0 t.cols).filter (fun p => !(p.2 == "Feature"))

/-- Position of the "Feature" column. -/
def featIdx (t : Table) : Nat := idxOf t.cols "Feature"

/-- The long-form row that `melt` emits for one input row and one value
column, with the Status cell appended by
`df["Status"] = df["Notes"].map(to_status)`. -/
def meltRow (t : Table) (p : Nat × String) (r : List CellValue) : List CellValue :=
  [r.getD (featIdx t) .nan, .str p.2, r.getD p.1 .nan,
   .str (to_status (r.getD p.1 .nan))]

/-- The wide-form branch: melt to long form (Feature, Competitor, Notes)
and append the classified Status column.  pandas' melt emits, for every
value column, one output row per input row. -/
def classifyWideTable (t : Table) : Table :=
  { cols := ["Feature", "Competitor", "Notes", "Status"],
    rows := (valueCols t).flatMap (fun p => t.rows.map (meltRow t p)) }

/-- The schema failure of the load step, abstracting the `KeyError`
pandas raises when `melt`'s `id_vars` are absent. -/
inductive SchemaError where
  | missingColumns (cols : List String)
deriving DecidableEq

/-- Does the cell hold a Python string? -/
def isStrCell : CellValue → Bool
  | .str _ => true
  | _ => false

/-- The "Status" column of a long-form table, in row order. -/
def statusCol (t : Table) : List CellValue :=
  t.rows.map (fun r => r.getD (idxOf t.cols "Status") CellValue.nan)

/-- pandas' `.str` accessor precondition on the Status column: an empty
column, or one holding at least one string, has object dtype and `.str`
applies elementwise (non-strings become NaN); a nonempty column with no
string cell is inferred as a numeric/NaN dtype by `read_csv` and `.str`
raises AttributeError. -/
def strAccessorOk (t : Table) : Bool :=
  t.rows.isEmpty || (statusCol t).any isStrCell

/-- A load-time failure: the schema failure (the spec's SchemaError), or
the AttributeError raised by using `.str` on a non-string-dtype Status
column in the long-form branch. -/
inductive LoadError where
  | schema (e : SchemaError)
  | strAccessorNonString
deriving DecidableEq

/-- Is the load failure the spec's SchemaError? -/
def isSchemaError : LoadError → Bool
  | .schema _ => true
  | .strAccessorNonString => false

/-- The load-and-normalize step of lines 6-26: pick the long-form branch
when "Status" and "Competitor" are both present — where
`df["Status"].str` raises AttributeError on a non-string-dtype Status
column — otherwise melt, which requires the "Feature" column and fails
the load with the schema error when it is absent. -/
def loadPipeline (t : Table) : Except LoadError Table :=
  if isLongForm t then
    if strAccessorOk t then .ok (normalizeLong t)
    else .error .strAccessorNonString
  else if t.cols.contains "Feature" then .ok (classifyWideTable t)
  else .error (.schema (.missingColumns ["Feature"]))

/-- One Comparison Record of the normalized dataset. -/
structure CompRecord where
  feature : CellValue
  competitor : CellValue
  status : CellValue
deriving DecidableEq

/-- The Comparison Records carried by the rows the wide-form branch
produces (columns Feature, Competitor, Notes, Status). -/
def wideRecords (t : Table) : List CompRecord :=
  (classifyWideTable t).rows.map (fun r =>
    { feature := r.getD 0 .nan, competitor := r.getD 1 .nan,
      status := r.getD 3 .nan })

/-- The result panel of the callback: the prompt, a table view, or a
heatmap view, each view carrying the filtered dataset it renders. -/
inductive View where
  | prompt
  | table (dff : List CompRecord)
  | heatmap (dff : List CompRecord)
deriving DecidableEq

/-- The callback `render_view(competitors, features, mode)`: an empty
selection on either dropdown short-circuits to the prompt; otherwise the
dataset is filtered by `isin` on both columns and handed to the chosen
view. -/
def render_view (db : List CompRecord) (competitors features : List CellValue)
    (mode : String) : View :=
  if competitors = [] ∨ features = [] then .prompt
  else
    let dff := db.filter (fun r =>
      competitors.contains r.competitor && features.contains r.feature)
    if mode = "table" then .table dff else .heatmap dff

/-- The records of one (feature, competitor) cell group, in dataset
order, as grouped by `pivot_table(index="Feature", columns="Competitor")`. -/
def pairFilter (ds : List CompRecord) (f c : CellValue) : List CompRecord :=
  ds.filter (fun r => r.feature == f && r.competitor == c)

/-- Is the cell null in pandas' sense (NaN or None)? -/
def isNullCell : CellValue → Bool
  | .nan => true
  | .pyNone => true
  | _ => false

/-- A cell of the table view's grid:
`pivot_table(values="Status", aggfunc="first")` aggregates each group
with GroupBy.first, which skips nulls and keeps the group's first
NON-null Status; the cell is the NaN marker (`none`) when every record
of the pair is null, and likewise after `reindex` for a pair with no
record at all. -/
def to_matrix (ds : List CompRecord) (f c : CellValue) : Option CellValue :=
  ((pairFilter ds f c).filter (fun r => !(isNullCell r.status))).head?.map
    CompRecord.status

/-- The dict `score_map = {"yes": 3, "partial": 2, "no": 1, "na": 0}`;
lookup of any other key misses. -/
def score_map (s : String) : Option Nat :=
  if s = "yes" then some 3 else if s = "partial" then some 2
  else if s = "no" then some 1 else if s = "na" then some 0 else none

/-- `dff["Status"].map(score_map).fillna(0)` per cell: a string Status is
looked up in the dict and a miss becomes 0, a non-string Status misses
the dict and also becomes 0. -/
def scoreOf : CellValue → Nat
  | .str s => (score_map s).getD 0
  | _ => 0

/-- A cell of the heatmap's score grid: first record's score for a
present pair, NaN (`none`) after `reindex` for an absent pair. -/
def to_score_matrix (ds : List CompRecord) (f c : CellValue) : Option Nat :=
  (pairFilter ds f c).head?.map (fun r => scoreOf r.status)

/-- The process-wide state: the single normalized dataset loaded at
startup. -/
structure AppState where
  db : List CompRecord
deriving DecidableEq

/-- One user interaction: the callback reads the module-level dataset,
builds a filtered copy (`.copy()`), and returns a view; the held state is
passed through untouched. -/
def handle_interaction (s : AppState) (competitors features : List CellValue)
    (mode : String) : AppState × View :=
  (s, render_view s.db competitors features mode)

/-- A one-row long-form table whose Status is already normalized, used
to exercise the long-form branch on concrete data. -/
def sampleLong : Table :=
  { cols := ["Feature", "Competitor", "Status"],
    rows := [[.str "sso", .str "acme", .str "yes"]] }

/-- A two-feature, two-competitor wide-form table, used to exercise the
reshape path on concrete data. -/
def sampleWide : Table :=
  { cols := ["Feature", "Acme", "Globex"],
    rows := [[.str "SSO", .str "ok", .str "missing docs"],
             [.str "Audit", .str "N/A", .str "need to request"]] }

/-- A one-row long-form table whose Status column is entirely numeric:
`read_csv` infers int64 for it, so `.str` raises at load time. -/
def numStatusLong : Table :=
  { cols := ["Feature", "Competitor", "Status"],
    rows := [[.str "sso", .str "acme", .int 1]] }

/-- The Feature label of each input row, in row order (the cell in the
"Feature" column). -/
def featLabels (t : Table) : List CellValue :=
  t.rows.map (fun r => r.getD (featIdx t) CellValue.nan)

/-- The competitor column names of a wide-form table: every column name
other than "Feature". -/
def compNames (t : Table) : List String :=
  t.cols.filter (fun c => !(c == "Feature"))

instance (v : CellValue) : Decidable (ruleNa v) := by
  unfold ruleNa; exact inferInstance

instance (v : CellValue) : Decidable (ruleNo v) := by
  unfold ruleNo; exact inferInstance

instance (v : CellValue) : Decidable (rulePart v) := by
  unfold rulePart; exact inferInstance

theorem to_status_eq_ladder (v : CellValue) :
    to_status v = if ruleNa v then "na" else if ruleNo v then "no"
      else if rulePart v then "partial" else "yes" := by
  unfold to_status ruleNa ruleNo rulePart pyNorm
  rfl

theorem to_status_four_valued (v : CellValue) :
    to_status v = "yes" ∨ to_status v = "partial" ∨ to_status v = "no" ∨
      to_status v = "na" := by
  rw [to_status_eq_ladder]
  by_cases h1 : ruleNa v <;> by_cases h2 : ruleNo v <;>
    by_cases h3 : rulePart v <;> simp [h1, h2, h3]

theorem list_set_getD_self (l : List α) (i : Nat) (d : α) :
    l.set i (l.getD i d) = l := by
  induction l generalizing i with
  | nil => rfl
  | cons a as ih =>
    cases i with
    | zero => rfl
    | succ n => simpa using ih n

/-- C1: `to_status` is first-match-wins over the ordered rule ladder:
the result is na exactly on rule 1, no exactly on rule 2 minus rule 1,
partial exactly on rule 3 minus the two earlier rules, and yes exactly
when no rule matches; hence a text matching both an earlier and a later
rule resolves to the earlier-listed rule. -/
theorem to_status_first_match_wins (v : CellValue) :
    (to_status v = "na" ↔ ruleNa v) ∧
    (to_status v = "no" ↔ ¬ruleNa v ∧ ruleNo v) ∧
    (to_status v = "partial" ↔ ¬ruleNa v ∧ ¬ruleNo v ∧ rulePart v) ∧
    (to_status v = "yes" ↔ ¬ruleNa v ∧ ¬ruleNo v ∧ ¬rulePart v) := by
  rw [to_status_eq_ladder]
  by_cases h1 : ruleNa v <;> by_cases h2 : ruleNo v <;>
    by_cases h3 : rulePart v <;> simp [h1, h2, h3]

/-- C2 counterexample: the code performs no trim before the equality
check of rule 1, so the padded text " NA " is classified yes, not na. -/
theorem to_status_padded_na_counterexample :
    to_status (CellValue.str " NA ") = "yes" ∧ ("yes" : String) ≠ "na" :=
  ⟨by decide, by decide⟩

/-- C2 (amended): normalization converts to text and lowercases but does
not trim; `to_status` returns na for every text whose lowercased form
equals "na" or "n/a" — in particular to_status("N/A") = na — while the
padded " NA " keeps its whitespace and is classified yes. -/
theorem to_status_na_needs_exact_match (s : String)
    (h : pyLower s = "na" ∨ pyLower s = "n/a") :
    to_status (CellValue.str s) = "na" ∧
    to_status (CellValue.str "N/A") = "na" ∧
    to_status (CellValue.str " NA ") = "yes" := by
  refine ⟨?_, by decide, by decide⟩
  have hnorm : pyNorm (CellValue.str s) = pyLower s := by
    unfold pyNorm pyStr pyOr
    by_cases he : s = "" <;> simp [he]
  have hna : ruleNa (CellValue.str s) := by
    unfold ruleNa
    rw [hnorm]
    rcases h with h | h
    · exact Or.inl h
    · exact Or.inr (Or.inl h)
  rw [to_status_eq_ladder, if_pos hna]

/-- C2 witness: the amended rule applied at the concrete text "N/A". -/
theorem to_status_na_needs_exact_match_witness :
    (pyLower "N/A" = "na" ∨ pyLower "N/A" = "n/a") ∧
    (to_status (CellValue.str "N/A") = "na" ∧
     to_status (CellValue.str "N/A") = "na" ∧
     to_status (CellValue.str " NA ") = "yes") :=
  ⟨Or.inr (by decide),
   to_status_na_needs_exact_match "N/A" (Or.inr (by decide))⟩

/-- C10: `to_status` is total over arbitrary cell values — every input,
None and float NaN included, yields one of the four statuses — and a NaN
cell is coerced by `str` to the non-empty string "nan" (so it does not
take the empty-string path) and is classified yes; None likewise becomes
"None" and is classified yes. -/
theorem to_status_total (v : CellValue) :
    (to_status v = "yes" ∨ to_status v = "partial" ∨ to_status v = "no" ∨
      to_status v = "na") ∧
    pyStr CellValue.nan = "nan" ∧
    pyOr (pyStr CellValue.nan) "" = "nan" ∧
    to_status CellValue.nan = "yes" ∧
    to_status CellValue.pyNone = "yes" :=
  ⟨to_status_four_valued v, rfl, by decide, by decide, by decide⟩

/-- C3 counterexample: a long-form table whose Status column is entirely
numeric has all its required columns yet fails at load — `read_csv`
infers a numeric dtype and `.str.lower()` raises AttributeError — a
failure mode that is not the SchemaError. -/
theorem loadPipeline_attributeerror_counterexample :
    isLongForm numStatusLong = true ∧
    loadPipeline numStatusLong = .error LoadError.strAccessorNonString ∧
    isSchemaError LoadError.strAccessorNonString = false :=
  ⟨by decide, rfl, rfl⟩

/-- C3 (amended): the load fails with the SchemaError exactly when the
wide-form branch is taken and the "Feature" column is absent (the
long-form branch has its required columns by branch selection); the
long-form branch additionally fails at load time with AttributeError
exactly when its Status column is nonempty and holds no string (a
non-string dtype under `.str`); and these are the only failure modes. -/
theorem loadPipeline_failure_modes (t : Table) :
    (loadPipeline t
        = .error (LoadError.schema (SchemaError.missingColumns ["Feature"]))
      ↔ isLongForm t = false ∧ t.cols.contains "Feature" = false) ∧
    (loadPipeline t = .error LoadError.strAccessorNonString
      ↔ isLongForm t = true ∧ strAccessorOk t = false) ∧
    ((∃ e, loadPipeline t = .error e)
      ↔ ((isLongForm t = false ∧ t.cols.contains "Feature" = false) ∨
         (isLongForm t = true ∧ strAccessorOk t = false))) := by
  unfold loadPipeline
  by_cases h1 : isLongForm t = true <;>
    by_cases h2 : strAccessorOk t = true <;>
    by_cases h3 : "Feature" ∈ t.cols <;>
    simp [h1, h2, h3]

/-- C7: an empty competitor selection or an empty feature selection
short-circuits `render_view` to the "please select" prompt before any
filtering or pivoting happens. -/
theorem render_view_empty_selection_prompt (db : List CompRecord)
    (competitors features : List CellValue) (mode : String)
    (h : competitors = [] ∨ features = []) :
    render_view db competitors features mode = View.prompt := by
  unfold render_view
  rw [if_pos h]

/-- C7 witness: an empty competitor selection with one feature selected
renders the prompt. -/
theorem render_view_empty_selection_prompt_witness :
    (([] : List CellValue) = [] ∨ ([CellValue.str "SSO"] : List CellValue) = []) ∧
    render_view [] [] [CellValue.str "SSO"] "table" = View.prompt :=
  ⟨Or.inl rfl,
   render_view_empty_selection_prompt [] [] [CellValue.str "SSO"] "table"
     (Or.inl rfl)⟩

/-- C9: a user interaction recomputes the view but passes the held
dataset through unchanged — same records, same Status values, same row
count — for every filter selection and view mode. -/
theorem handle_interaction_preserves_db (s : AppState)
    (competitors features : List CellValue) (mode : String) :
    (handle_interaction s competitors features mode).1 = s ∧
    (handle_interaction s competitors features mode).1.db.map CompRecord.status
      = s.db.map CompRecord.status ∧
    (handle_interaction s competitors features mode).1.db.length = s.db.length ∧
    (handle_interaction s competitors features mode).2
      = render_view s.db competitors features mode :=
  ⟨rfl, rfl, rfl, rfl⟩

/-- C4 counterexample: with the single record (F1, A, partial), the
score grid at the absent pair (F1, B) holds the NaN missing marker left
by `reindex`, not score 0. -/
theorem score_matrix_missing_pair_counterexample :
    to_score_matrix
        [⟨CellValue.str "F1", CellValue.str "A", CellValue.str "partial"⟩]
        (CellValue.str "F1") (CellValue.str "B") = none ∧
      (none : Option Nat) ≠ some 0 :=
  ⟨by decide, by decide⟩

/-- C4 (amended): a present cell's score is its first record's Status
mapped through the fixed table yes 3 / partial 2 / no 1 / na 0 (an
unrecognized Status scores 0 via fillna) — in particular a partial cell
yields 2 — while a (feature, competitor) pair with no record yields the
NaN missing marker, not score 0. -/
theorem score_matrix_cells (ds : List CompRecord) (f c : CellValue)
    (r : CompRecord) (hhead : (pairFilter ds f c).head? = some r) :
    to_score_matrix ds f c = some (scoreOf r.status) ∧
    (r.status = CellValue.str "partial" → to_score_matrix ds f c = some 2) ∧
    scoreOf (CellValue.str "yes") = 3 ∧ scoreOf (CellValue.str "partial") = 2 ∧
    scoreOf (CellValue.str "no") = 1 ∧ scoreOf (CellValue.str "na") = 0 ∧
    ∀ g k : CellValue, (∀ x ∈ ds, ¬(x.feature = g ∧ x.competitor = k)) →
      to_score_matrix ds g k = none := by
  refine ⟨?_, ?_, rfl, rfl, rfl, rfl, ?_⟩
  · unfold to_score_matrix
    rw [hhead]
    rfl
  · intro hp
    unfold to_score_matrix
    rw [hhead, Option.map_some', hp]
    decide
  · intro g k hnone
    have hnil : pairFilter ds g k = [] := by
      unfold pairFilter
      rw [List.filter_eq_nil_iff]
      intro x hx
      simp only [Bool.and_eq_true, beq_iff_eq, not_and]
      intro h1 h2
      exact hnone x hx ⟨h1, h2⟩
    unfold to_score_matrix
    rw [hnil]
    rfl

/-- C4 witness: the amended statement applied to the one-record dataset
(F1, A, partial): the present cell scores 2 and the absent pair
(F1, B) has no score. -/
theorem score_matrix_cells_witness :
    (pairFilter
        [⟨CellValue.str "F1", CellValue.str "A", CellValue.str "partial"⟩]
        (CellValue.str "F1") (CellValue.str "A")).head? =
      some ⟨CellValue.str "F1", CellValue.str "A", CellValue.str "partial"⟩ ∧
    to_score_matrix
        [⟨CellValue.str "F1", CellValue.str "A", CellValue.str "partial"⟩]
        (CellValue.str "F1") (CellValue.str "A") = some 2 :=
  ⟨by decide,
   (score_matrix_cells
      [⟨CellValue.str "F1", CellValue.str "A", CellValue.str "partial"⟩]
      (CellValue.str "F1") (CellValue.str "A")
      ⟨CellValue.str "F1", CellValue.str "A", CellValue.str "partial"⟩
      (by decide)).2.1 rfl⟩

/-- C5 counterexample: with two records for the pair (F, A) — first yes,
last no — the pivoted cell keeps the first record's Status "yes", not
the last record's "no": aggfunc "first" is first-write-wins. -/
theorem pivot_not_last_write_wins :
    to_matrix [⟨CellValue.str "F", CellValue.str "A", CellValue.str "yes"⟩,
               ⟨CellValue.str "F", CellValue.str "A", CellValue.str "no"⟩]
      (CellValue.str "F") (CellValue.str "A") = some (CellValue.str "yes") ∧
    ([⟨CellValue.str "F", CellValue.str "A", CellValue.str "yes"⟩,
      (⟨CellValue.str "F", CellValue.str "A", CellValue.str "no"⟩ :
        CompRecord)].getLast?.map CompRecord.status)
      = some (CellValue.str "no") ∧
    some (CellValue.str "yes") ≠ some (CellValue.str "no") :=
  ⟨by decide, by decide, by decide⟩

theorem head_filter_append {α : Type} (pre post : List α) (r : α)
    (p : α → Bool) (hp : ∀ x ∈ pre, p x = false) (hr : p r = true) :
    ((pre ++ r :: post).filter p).head? = some r := by
  have h1 : pre.filter p = [] :=
    List.filter_eq_nil_iff.mpr (fun x hx => by simp [hp x hx])
  rw [List.filter_append, h1, List.nil_append, List.filter_cons, if_pos hr]
  rfl

/-- C5 (amended): pivoting with aggfunc "first" resolves duplicated
(Feature, Competitor) pairs by the earliest usable record in dataset
order, not the last: the Status cell holds the first record of the pair
whose Status is non-null — GroupBy.first skips nulls, and the cell is
the NaN marker when every record of the pair is null — while the score
cell holds the first record of the pair outright, scores being never
null after fillna(0). -/
theorem pivot_first_nonnull_wins (ds : List CompRecord) (f c : CellValue) :
    (∀ pre r post, ds = pre ++ r :: post → r.feature = f →
      r.competitor = c → isNullCell r.status = false →
      (∀ x ∈ pre, x.feature = f → x.competitor = c →
        isNullCell x.status = true) →
      to_matrix ds f c = some r.status) ∧
    (∀ pre r post, ds = pre ++ r :: post → r.feature = f →
      r.competitor = c →
      (∀ x ∈ pre, ¬(x.feature = f ∧ x.competitor = c)) →
      to_score_matrix ds f c = some (scoreOf r.status)) ∧
    ((∀ x ∈ ds, x.feature = f → x.competitor = c →
        isNullCell x.status = true) →
      to_matrix ds f c = none) := by
  refine ⟨?_, ?_, ?_⟩
  · intro pre r post hds hf hc hnn hpre
    subst hds
    have hp : ∀ x ∈ pre, ((!(isNullCell x.status)) &&
        (x.feature == f && x.competitor == c)) = false := by
      intro x hx
      by_cases hxf : x.feature = f
      · by_cases hxc : x.competitor = c
        · simp [hpre x hx hxf hxc]
        · simp [hxc]
      · simp [hxf]
    have hhead : (((pre ++ r :: post).filter (fun x =>
        (!(isNullCell x.status)) &&
          (x.feature == f && x.competitor == c)))).head? = some r :=
      head_filter_append pre post r _ hp (by simp [hf, hc, hnn])
    unfold to_matrix pairFilter
    rw [List.filter_filter, hhead]
    rfl
  · intro pre r post hds hf hc hpre
    subst hds
    have hp : ∀ x ∈ pre, (x.feature == f && x.competitor == c) = false := by
      intro x hx
      by_cases hxf : x.feature = f
      · by_cases hxc : x.competitor = c
        · exact absurd ⟨hxf, hxc⟩ (hpre x hx)
        · simp [hxc]
      · simp [hxf]
    have hhead : ((pre ++ r :: post).filter
        (fun x => x.feature == f && x.competitor == c)).head? = some r :=
      head_filter_append pre post r _ hp (by simp [hf, hc])
    unfold to_score_matrix pairFilter
    rw [hhead]
    rfl
  · intro hall
    have hnil : (pairFilter ds f c).filter
        (fun x => !(isNullCell x.status)) = [] := by
      rw [List.filter_eq_nil_iff]
      intro x hx
      unfold pairFilter at hx
      rw [List.mem_filter, Bool.and_eq_true, beq_iff_eq, beq_iff_eq] at hx
      obtain ⟨hxds, hxf, hxc⟩ := hx
      simp [hall x hxds hxf hxc]
    unfold to_matrix
    rw [hnil]
    rfl

/-- C5 witness: the amended rule at the concrete dataset
(F, A, NaN), (F, A, yes), (F, A, no): the Status cell skips the leading
null and holds "yes", while the score cell takes the very first record —
the null one, scored 0 by fillna. -/
theorem pivot_first_nonnull_wins_witness :
    isNullCell (CellValue.str "yes") = false ∧
    to_matrix [⟨CellValue.str "F", CellValue.str "A", CellValue.nan⟩,
               ⟨CellValue.str "F", CellValue.str "A", CellValue.str "yes"⟩,
               ⟨CellValue.str "F", CellValue.str "A", CellValue.str "no"⟩]
        (CellValue.str "F") (CellValue.str "A")
      = some (CellValue.str "yes") ∧
    to_score_matrix [⟨CellValue.str "F", CellValue.str "A", CellValue.nan⟩,
               ⟨CellValue.str "F", CellValue.str "A", CellValue.str "yes"⟩,
               ⟨CellValue.str "F", CellValue.str "A", CellValue.str "no"⟩]
        (CellValue.str "F") (CellValue.str "A")
      = some 0 :=
  ⟨rfl,
   (pivot_first_nonnull_wins
      [⟨CellValue.str "F", CellValue.str "A", CellValue.nan⟩,
       ⟨CellValue.str "F", CellValue.str "A", CellValue.str "yes"⟩,
       ⟨CellValue.str "F", CellValue.str "A", CellValue.str "no"⟩]
      (CellValue.str "F") (CellValue.str "A")).1
     [⟨CellValue.str "F", CellValue.str "A", CellValue.nan⟩]
     ⟨CellValue.str "F", CellValue.str "A", CellValue.str "yes"⟩
     [⟨CellValue.str "F", CellValue.str "A", CellValue.str "no"⟩]
     rfl rfl rfl rfl (by decide),
   (pivot_first_nonnull_wins
      [⟨CellValue.str "F", CellValue.str "A", CellValue.nan⟩,
       ⟨CellValue.str "F", CellValue.str "A", CellValue.str "yes"⟩,
       ⟨CellValue.str "F", CellValue.str "A", CellValue.str "no"⟩]
      (CellValue.str "F") (CellValue.str "A")).2.1
     []
     ⟨CellValue.str "F", CellValue.str "A", CellValue.nan⟩
     [⟨CellValue.str "F", CellValue.str "A", CellValue.str "yes"⟩,
      ⟨CellValue.str "F", CellValue.str "A", CellValue.str "no"⟩]
     rfl rfl rfl (by decide)⟩

theorem list_map_id_of_mem (l : List α) (f : α → α) (h : ∀ x ∈ l, f x = x) :
    l.map f = l := by
  induction l with
  | nil => rfl
  | cons a as ih =>
    rw [List.map_cons, h a (List.mem_cons_self a as),
      ih (fun x hx => h x (List.mem_cons_of_mem a hx))]

/-- C8: normalizing long-form input is idempotent — when every Status
cell is already a lowercase, whitespace-trimmed string, the long-form
branch rewrites each Status cell to itself and leaves the table
unchanged. -/
theorem normalizeLong_idempotent (t : Table) (hlong : isLongForm t = true)
    (h : ∀ r ∈ t.rows, ∃ s, r.getD (idxOf t.cols "Status") CellValue.nan
        = CellValue.str s ∧ pyLower s = s ∧ pyStrip s = s) :
    normalizeLong t = t := by
  have hmap : t.rows.map (fun r =>
      r.set (idxOf t.cols "Status")
        (statusNorm (r.getD (idxOf t.cols "Status") CellValue.nan)))
      = t.rows := by
    apply list_map_id_of_mem
    intro r hr
    obtain ⟨s, hs, hl, ht⟩ := h r hr
    rw [hs]
    simp only [statusNorm]
    rw [hl, ht, ← hs, list_set_getD_self]
  unfold normalizeLong
  rw [hmap]

/-- C8 witness: the idempotence applied to a concrete one-row long-form
table whose Status "yes" is already lowercase and trimmed. -/
theorem normalizeLong_idempotent_witness :
    isLongForm sampleLong = true ∧ normalizeLong sampleLong = sampleLong :=
  ⟨by decide,
   normalizeLong_idempotent sampleLong (by decide)
     (by
       intro r hr
       have hrow : r = [CellValue.str "sso", CellValue.str "acme",
           CellValue.str "yes"] := by
         simpa [sampleLong] using hr
       subst hrow
       exact ⟨"yes", by decide, by decide, by decide⟩)⟩

theorem wideRecords_eq (t : Table) :
    wideRecords t = (valueCols t).flatMap (fun p => t.rows.map (fun r =>
      (⟨r.getD (featIdx t) CellValue.nan, CellValue.str p.2,
        CellValue.str (to_status (r.getD p.1 CellValue.nan))⟩ : CompRecord))) := by
  unfold wideRecords classifyWideTable
  rw [List.map_flatMap]
  apply congrArg
  funext p
  rw [List.map_map]
  rfl

theorem flatMap_length_const {α β : Type} (ps : List α) (g : α → List β)
    (n : Nat) (h : ∀ p ∈ ps, (g p).length = n) :
    (ps.flatMap g).length = ps.length * n := by
  induction ps with
  | nil => simp
  | cons p ps ih =>
    rw [List.flatMap_cons, List.length_append, h p (List.mem_cons_self p ps),
      ih (fun q hq => h q (List.mem_cons_of_mem p hq)), List.length_cons,
      Nat.succ_mul]
    omega

theorem idxPairs_filter_snd (cols : List String) (i : Nat) :
    ((idxPairs i cols).filter (fun p => !(p.2 == "Feature"))).map Prod.snd
      = cols.filter (fun c => !(c == "Feature")) := by
  induction cols generalizing i with
  | nil => rfl
  | cons c cs ih =>
    simp only [idxPairs, List.filter_cons]
    by_cases hc : (c == "Feature") = true
    · simp [hc, ih]
    · simp [hc, ih]

theorem melt_filter_ne (rows : List (List CellValue)) (fi vi : Nat)
    (f : CellValue) (c cn : String) (hne : cn ≠ c) :
    (rows.map (fun r =>
        (⟨r.getD fi CellValue.nan, CellValue.str cn,
          CellValue.str (to_status (r.getD vi CellValue.nan))⟩ :
          CompRecord))).filter
      (fun x => x.feature == f && x.competitor == CellValue.str c) = [] := by
  rw [List.filter_eq_nil_iff]
  intro x hx
  rw [List.mem_map] at hx
  obtain ⟨r, _, rfl⟩ := hx
  simp [hne]

theorem melt_filter_eq_count (rows : List (List CellValue)) (fi vi : Nat)
    (f : CellValue) (c : String) :
    ((rows.map (fun r =>
        (⟨r.getD fi CellValue.nan, CellValue.str c,
          CellValue.str (to_status (r.getD vi CellValue.nan))⟩ :
          CompRecord))).filter
      (fun x => x.feature == f && x.competitor == CellValue.str c)).length
      = ((rows.map (fun r => r.getD fi CellValue.nan)).filter
          (fun l => l == f)).length := by
  induction rows with
  | nil => rfl
  | cons r rows ih =>
    rw [List.map_cons, List.map_cons, List.filter_cons, List.filter_cons]
    by_cases hf : r.getD fi CellValue.nan = f
    · rw [if_pos (by simpa using hf), if_pos (by simpa using hf),
        List.length_cons, List.length_cons, ih]
    · rw [if_neg (by simpa using hf), if_neg (by simpa using hf)]
      exact ih

theorem nodup_filter_beq_singleton (l : List CellValue) (f : CellValue)
    (hnd : l.Nodup) (hm : f ∈ l) :
    (l.filter (fun x => x == f)).length = 1 := by
  induction l with
  | nil => cases hm
  | cons a l ih =>
    rw [List.nodup_cons] at hnd
    rw [List.filter_cons]
    by_cases ha : (a == f) = true
    · have haf : a = f := by simpa using ha
      subst haf
      have hnil : l.filter (fun x => x == a) = [] := by
        rw [List.filter_eq_nil_iff]
        intro x hx
        simp only [beq_iff_eq]
        intro hxa
        exact hnd.1 (hxa ▸ hx)
      simp [ha, hnil]
    · have hm' : f ∈ l := by
        rcases List.mem_cons.mp hm with h | h
        · exact absurd (by simp [h]) ha
        · exact h
      simp [ha, ih hnd.2 hm']

theorem melt_outer_zero (t : Table) (f : CellValue) (c : String)
    (ps : List (Nat × String)) (hc : c ∉ ps.map Prod.snd) :
    (ps.flatMap (fun p => t.rows.map (fun r =>
        (⟨r.getD (featIdx t) CellValue.nan, CellValue.str p.2,
          CellValue.str (to_status (r.getD p.1 CellValue.nan))⟩ :
          CompRecord)))).filter
      (fun x => x.feature == f && x.competitor == CellValue.str c) = [] := by
  induction ps with
  | nil => rfl
  | cons p ps ih =>
    rw [List.flatMap_cons, List.filter_append]
    have h1 : p.2 ≠ c := by
      intro he
      apply hc
      rw [List.map_cons, ← he]
      exact List.mem_cons_self _ _
    rw [melt_filter_ne t.rows (featIdx t) p.1 f c p.2 h1, List.nil_append]
    refine ih ?_
    intro hmem
    apply hc
    rw [List.map_cons]
    exact List.mem_cons_of_mem _ hmem

theorem melt_outer_one (t : Table) (f : CellValue) (c : String)
    (ps : List (Nat × String)) (hnd : (ps.map Prod.snd).Nodup)
    (hc : c ∈ ps.map Prod.snd)
    (hlnd : (t.rows.map (fun r => r.getD (featIdx t) CellValue.nan)).Nodup)
    (hlf : f ∈ t.rows.map (fun r => r.getD (featIdx t) CellValue.nan)) :
    ((ps.flatMap (fun p => t.rows.map (fun r =>
        (⟨r.getD (featIdx t) CellValue.nan, CellValue.str p.2,
          CellValue.str (to_status (r.getD p.1 CellValue.nan))⟩ :
          CompRecord)))).filter
      (fun x => x.feature == f && x.competitor == CellValue.str c)).length
      = 1 := by
  induction ps with
  | nil => cases hc
  | cons p ps ih =>
    rw [List.map_cons, List.nodup_cons] at hnd
    rw [List.flatMap_cons, List.filter_append, List.length_append]
    by_cases hpc : p.2 = c
    · subst hpc
      rw [melt_filter_eq_count t.rows (featIdx t) p.1 f p.2,
        nodup_filter_beq_singleton _ f hlnd hlf,
        melt_outer_zero t f p.2 ps hnd.1]
      rfl
    · rw [melt_filter_ne t.rows (featIdx t) p.1 f c p.2 hpc]
      simp only [List.length_nil, Nat.zero_add]
      apply ih hnd.2
      rw [List.map_cons] at hc
      rcases List.mem_cons.mp hc with h | h
      · exact absurd h.symm hpc
      · exact h

/-- C6: reshaping a wide-form table with F feature rows and C competitor
columns yields exactly F×C Comparison Records; with duplicate-free
column names and feature labels, every (feature, competitor) pair of the
input appears in exactly one record; and every record's Status is one of
yes, partial, no, na. -/
theorem wide_reshape_product (t : Table) (hcols : t.cols.Nodup)
    (hfeat : t.cols.contains "Feature" = true)
    (hlabels : (featLabels t).Nodup) :
    (wideRecords t).length = t.rows.length * (compNames t).length ∧
    (∀ f ∈ featLabels t, ∀ c ∈ compNames t,
      ((wideRecords t).filter (fun x =>
        x.feature == f && x.competitor == CellValue.str c)).length = 1) ∧
    (∀ x ∈ wideRecords t,
      x.status = CellValue.str "yes" ∨ x.status = CellValue.str "partial" ∨
        x.status = CellValue.str "no" ∨ x.status = CellValue.str "na") := by
  have hsnd : (valueCols t).map Prod.snd = compNames t := by
    unfold valueCols compNames
    exact idxPairs_filter_snd t.cols 0
  refine ⟨?_, ?_, ?_⟩
  · rw [wideRecords_eq,
      flatMap_length_const (valueCols t) _ t.rows.length
        (fun p _ => List.length_map _ _)]
    have hlen : (valueCols t).length = (compNames t).length := by
      rw [← hsnd, List.length_map]
    rw [hlen, Nat.mul_comm]
  · intro f hf c hc
    rw [wideRecords_eq]
    apply melt_outer_one t f c (valueCols t)
    · rw [hsnd]
      exact hcols.filter _
    · rw [hsnd]
      exact hc
    · exact hlabels
    · exact hf
  · intro x hx
    rw [wideRecords_eq, List.mem_flatMap] at hx
    obtain ⟨p, _, hx⟩ := hx
    rw [List.mem_map] at hx
    obtain ⟨r, _, rfl⟩ := hx
    simpa using to_status_four_valued (r.getD p.1 CellValue.nan)

/-- C6 witness: the reshape invariants applied to the concrete 2-feature,
2-competitor wide table, which produces 2×2 records. -/
theorem wide_reshape_product_witness :
    (sampleWide.cols.Nodup ∧ sampleWide.cols.contains "Feature" = true ∧
      (featLabels sampleWide).Nodup) ∧
    (wideRecords sampleWide).length
      = sampleWide.rows.length * (compNames sampleWide).length :=
  ⟨⟨by decide, by decide, by decide⟩,
   (wide_reshape_product sampleWide (by decide) (by decide) (by decide)).1⟩
